import Mathlib

/-!
Verification of the real-time WebSocket fanout layer of a team chat server.

The embedded code is the `wss.on('connection')` handler in the routes module:
a process-wide `clients : Map<WebSocket, {userId, channels: Set<number>}>`,
mutated by inbound frames of type `auth`, `join_channel`, `leave_channel`,
queried by `new_message` and `typing` (fanout to other subscribed, open
sockets), and cleaned up by the `close` handler (`clients.delete(ws)`).

Modelling choices, each mirroring the source:
* A WebSocket handle is an opaque identifier (`WS := Nat`).
* The JS `Map` is an insertion-ordered association list with unique keys;
  `mapSet` replaces in place (Map.set keeps the position of an existing key)
  or appends, `mapGet` finds the first binding, `mapDelete` removes the key.
* The JS `Set<number>` of channels is a duplicate-free ordered list:
  `setAdd` appends when absent, `setDelete` removes.
* `readyState === WebSocket.OPEN` is a predicate `ready : WS → Bool`
  supplied to the handler, since readiness is transport state, not registry
  state.
* A raw frame is `Option Frame`: `none` models a JSON.parse failure (the
  surrounding try/catch logs and continues), `Frame.unknown` a parseable
  object whose `type` matches no switch case.
* `ws.send` is fire-and-forget; outbound traffic is the list of
  `(recipient, frame)` pairs the handler emits, in iteration order.
-/

/-- The opaque handle of one live WebSocket connection. -/
abbrev WS := Nat

/-- Per-connection metadata kept in the `clients` map: the asserted user id
and the set of joined channel ids (`{ userId, channels: Set<number> }`). -/
structure ClientInfo where
  userId : Int
  channels : List Nat
deriving Repr, DecidableEq

/-- The process-wide `clients` map, as an insertion-ordered association list. -/
abbrev Clients := List (WS × ClientInfo)

/-- `clients.get(ws)`: first binding for the key, if any. -/
def mapGet (m : Clients) (k : WS) : Option ClientInfo :=
  match m with
  | [] => none
  | (k1, v) :: rest => if k1 = k then some v else mapGet rest k

/-- `clients.set(ws, v)`: replace the existing binding in place (JS `Map.set`
keeps the insertion position of a present key) or append a fresh one. -/
def mapSet (m : Clients) (k : WS) (v : ClientInfo) : Clients :=
  match m with
  | [] => [(k, v)]
  | (k1, v1) :: rest => if k1 = k then (k, v) :: rest else (k1, v1) :: mapSet rest k v

/-- `clients.delete(ws)`: drop every binding of the key. -/
def mapDelete (m : Clients) (k : WS) : Clients :=
  m.filter (fun p => p.1 ≠ k)

/-- `channels.add(c)` on a JS `Set`: append only when absent. -/
def setAdd (s : List Nat) (c : Nat) : List Nat :=
  if c ∈ s then s else s ++ [c]

/-- `channels.delete(c)` on a JS `Set`: remove the element. -/
def setDelete (s : List Nat) (c : Nat) : List Nat :=
  s.filter (fun x => x ≠ c)

/-- An inbound frame after JSON decoding, tagged by its `type` field.
`unknown` stands for any parseable frame whose `type` matches no case of the
switch statement. -/
inductive Frame where
  | auth (userId : Int)
  | joinChannel (channelId : Nat)
  | leaveChannel (channelId : Nat)
  | newMessage (channelId : Nat) (data : String)
  | typing (channelId : Nat) (userId : Int) (isTyping : Bool)
  | unknown
deriving Repr, DecidableEq

/-- An outbound frame written by the fanout paths. -/
inductive Outbound where
  | newMessage (message : String)
  | typing (userId : Int) (channelId : Nat) (isTyping : Bool)
deriving Repr, DecidableEq

/-- The recipients of one fanout, in map-iteration order: every binding
`(clientWs, clientInfo)` with `clientWs !== ws`,
`clientInfo.channels.has(channelId)` and `clientWs.readyState === OPEN`. -/
def broadcastTargets (clients : Clients) (ready : WS → Bool) (ws : WS)
    (channelId : Nat) : Clients :=
  clients.filter (fun p => p.1 ≠ ws && p.2.channels.contains channelId && ready p.1)

/-- The `ws.on('message')` handler: decode, then switch on `type`.
Returns the updated `clients` map and the list of sends performed. -/
def handleMessage (ready : WS → Bool) (ws : WS) (frame : Option Frame)
    (clients : Clients) : Clients × List (WS × Outbound) :=
  match frame with
  | none => (clients, [])
  | some (Frame.auth u) => (mapSet clients ws ⟨u, []⟩, [])
  | some (Frame.joinChannel c) =>
    match mapGet clients ws with
    | some info => (mapSet clients ws ⟨info.userId, setAdd info.channels c⟩, [])
    | none => (clients, [])
  | some (Frame.leaveChannel c) =>
    match mapGet clients ws with
    | some info => (mapSet clients ws ⟨info.userId, setDelete info.channels c⟩, [])
    | none => (clients, [])
  | some (Frame.newMessage c d) =>
    (clients,
      (broadcastTargets clients ready ws c).map (fun p => (p.1, Outbound.newMessage d)))
  | some (Frame.typing c u t) =>
    (clients,
      (broadcastTargets clients ready ws c).map (fun p => (p.1, Outbound.typing u c t)))
  | some Frame.unknown => (clients, [])

/-- The `ws.on('close')` handler: `clients.delete(ws)`. -/
def handleClose (ws : WS) (clients : Clients) : Clients :=
  mapDelete clients ws

/-- The connections currently subscribed to a channel, in map order. -/
def subscribersOf (clients : Clients) (channelId : Nat) : List WS :=
  (clients.filter (fun p => p.2.channels.contains channelId)).map (fun p => p.1)

/-- The frames delivered to one connection, in order, out of a send list. -/
def outputsFor (outs : List (WS × Outbound)) (w : WS) : List Outbound :=
  (outs.filter (fun p => p.1 = w)).map (fun p => p.2)

/-- Well-formedness of the registry: a JS `Map` holds each key at most once. -/
def WF (clients : Clients) : Prop :=
  (clients.map Prod.fst).Nodup

instance (clients : Clients) : Decidable (WF clients) := by
  unfold WF
  infer_instance

/-- One interleaved event of the server's single-threaded event loop: an
inbound frame on some connection, or a transport close. -/
inductive Event where
  | msg (ws : WS) (frame : Option Frame)
  | close (ws : WS)
deriving Repr, DecidableEq

/-- Process one event against the registry. -/
def stepEvent (ready : WS → Bool) (e : Event) (clients : Clients) :
    Clients × List (WS × Outbound) :=
  match e with
  | Event.msg ws f => handleMessage ready ws f clients
  | Event.close ws => (handleClose ws clients, [])

/-- Process a trace of events, accumulating all sends in order. Each handler
runs to completion before the next event, as in Node's event loop. -/
def run (ready : WS → Bool) (tr : List Event) (clients : Clients) :
    Clients × List (WS × Outbound) :=
  match tr with
  | [] => (clients, [])
  | e :: es =>
    let r := stepEvent ready e clients
    let r2 := run ready es r.1
    (r2.1, r.2 ++ r2.2)

/-! ### Helper lemmas about the association-list map and the fanout -/

lemma mapGet_eq_none_iff (m : Clients) (k : WS) :
    mapGet m k = none ↔ ∀ v, (k, v) ∉ m := by
  induction m with
  | nil => simp [mapGet]
  | cons p rest ih =>
    obtain ⟨k1, v1⟩ := p
    by_cases hk : k1 = k
    · subst hk
      simp only [mapGet, if_pos rfl]
      constructor
      · intro h
        exact absurd h (by simp)
      · intro h
        exact absurd (List.mem_cons_self _ _) (h v1)
    · simp only [mapGet, if_neg hk]
      rw [ih]
      constructor
      · intro h v hv
        rcases List.mem_cons.mp hv with hv | hv
        · exact absurd (congrArg Prod.fst hv).symm hk
        · exact h v hv
      · intro h v hv
        exact h v (List.mem_cons_of_mem _ hv)

lemma mapGet_mapSet_self (m : Clients) (k : WS) (v : ClientInfo) :
    mapGet (mapSet m k v) k = some v := by
  induction m with
  | nil => simp [mapSet, mapGet]
  | cons p rest ih =>
    obtain ⟨k1, v1⟩ := p
    by_cases hk : k1 = k
    · simp [mapSet, hk, mapGet]
    · simp [mapSet, hk, mapGet, ih]

lemma mapGet_mapSet_ne (m : Clients) (k k1 : WS) (v : ClientInfo) (h : k1 ≠ k) :
    mapGet (mapSet m k v) k1 = mapGet m k1 := by
  have hne : ¬k = k1 := fun e => h e.symm
  induction m with
  | nil =>
    simp only [mapSet, mapGet]
    rw [if_neg hne]
  | cons p rest ih =>
    obtain ⟨k2, v2⟩ := p
    by_cases hk : k2 = k
    · subst hk
      simp only [mapSet, if_pos rfl, mapGet]
      simp only [if_neg hne]
    · simp only [mapSet, if_neg hk, mapGet]
      by_cases hk1 : k2 = k1 <;> simp [hk1, ih]

lemma keys_mapSet (m : Clients) (k : WS) (v : ClientInfo) :
    (mapSet m k v).map Prod.fst
      = if mapGet m k = none then m.map Prod.fst ++ [k] else m.map Prod.fst := by
  induction m with
  | nil => simp [mapSet, mapGet]
  | cons p rest ih =>
    obtain ⟨k1, v1⟩ := p
    by_cases hk : k1 = k
    · simp [mapSet, hk, mapGet]
    · simp only [mapSet, if_neg hk, mapGet, List.map_cons, ih]
      by_cases hg : mapGet rest k = none <;> simp [hg]

lemma WF_mapSet (m : Clients) (k : WS) (v : ClientInfo) (h : WF m) :
    WF (mapSet m k v) := by
  unfold WF at h ⊢
  rw [keys_mapSet]
  by_cases hg : mapGet m k = none
  · have hk : k ∉ m.map Prod.fst := by
      rw [mapGet_eq_none_iff] at hg
      intro hmem
      rcases List.mem_map.mp hmem with ⟨⟨a, b⟩, hp, hfst⟩
      rw [show a = k from hfst] at hp
      exact hg b hp
    simp [hg, List.nodup_append, h, hk]
  · simp [hg, h]

lemma mapGet_eq_of_mem (m : Clients) (k : WS) (v : ClientInfo)
    (hWF : WF m) (hmem : (k, v) ∈ m) : mapGet m k = some v := by
  induction m with
  | nil => cases hmem
  | cons p rest ih =>
    obtain ⟨k1, v1⟩ := p
    unfold WF at hWF
    simp only [List.map_cons, List.nodup_cons] at hWF
    rcases List.mem_cons.mp hmem with hv | hv
    · injection hv with h1 h2
      subst h1; subst h2
      simp [mapGet]
    · by_cases hk : k1 = k
      · subst hk
        exact absurd (List.mem_map.mpr ⟨(k1, v), hv, rfl⟩) hWF.1
      · simp only [mapGet, if_neg hk]
        exact ih hWF.2 hv

lemma mem_subscribersOf (clients : Clients) (c : Nat) (w : WS) :
    w ∈ subscribersOf clients c
      ↔ ∃ info, (w, info) ∈ clients ∧ info.channels.contains c = true := by
  unfold subscribersOf
  rw [List.mem_map]
  constructor
  · rintro ⟨p, hp, rfl⟩
    rw [List.mem_filter] at hp
    exact ⟨p.2, hp.1, by simpa using hp.2⟩
  · rintro ⟨info, hmem, hc⟩
    exact ⟨(w, info), List.mem_filter.mpr ⟨hmem, by simpa using hc⟩, rfl⟩

lemma outputsFor_eq_nil (outs : List (WS × Outbound)) (w : WS)
    (h : ∀ p ∈ outs, p.1 ≠ w) : outputsFor outs w = [] := by
  unfold outputsFor
  rw [List.filter_eq_nil_iff.mpr (fun p hp => by simpa using h p hp)]
  rfl

lemma broadcastTargets_cons (p : WS × ClientInfo) (rest : Clients)
    (ready : WS → Bool) (ws : WS) (c : Nat) :
    broadcastTargets (p :: rest) ready ws c =
      if (p.1 ≠ ws && p.2.channels.contains c && ready p.1) = true
      then p :: broadcastTargets rest ready ws c
      else broadcastTargets rest ready ws c := by
  unfold broadcastTargets
  rw [List.filter_cons]

lemma subscribersOf_cons (p : WS × ClientInfo) (rest : Clients) (c : Nat) :
    subscribersOf (p :: rest) c =
      if c ∈ p.2.channels
      then p.1 :: subscribersOf rest c
      else subscribersOf rest c := by
  unfold subscribersOf
  rw [List.filter_cons]
  by_cases h : c ∈ p.2.channels <;> simp [h]

lemma outputsFor_map_cons (p : WS × ClientInfo) (ts : Clients) (o : Outbound) (w : WS) :
    outputsFor ((p :: ts).map (fun q => (q.1, o))) w =
      if p.1 = w
      then o :: outputsFor (ts.map (fun q => (q.1, o))) w
      else outputsFor (ts.map (fun q => (q.1, o))) w := by
  simp only [List.map_cons]
  unfold outputsFor
  rw [List.filter_cons]
  by_cases h : p.1 = w <;> simp [h]

lemma outputsFor_targets_of_not_key (ready : WS → Bool) (ws w : WS) (c : Nat)
    (o : Outbound) (clients : Clients) (h : ∀ p ∈ clients, p.1 ≠ w) :
    outputsFor ((broadcastTargets clients ready ws c).map (fun q => (q.1, o))) w = [] := by
  apply outputsFor_eq_nil
  intro q hq
  rcases List.mem_map.mp hq with ⟨p2, hp2, rfl⟩
  exact h p2 (List.mem_filter.mp hp2).1

/-- The heart of the fanout paths: under a well-formed registry, the frames a
connection `w` receives out of one fanout for channel `c` originated by `ws`
are exactly one copy of the broadcast frame when `w` is a subscriber of `c`
other than the sender with an open socket, and nothing otherwise. -/
lemma outputsFor_targets (ready : WS → Bool) (ws : WS) (c : Nat) (o : Outbound)
    (clients : Clients) (w : WS) (hWF : WF clients) :
    outputsFor ((broadcastTargets clients ready ws c).map (fun q => (q.1, o))) w =
      if w ≠ ws ∧ w ∈ subscribersOf clients c ∧ ready w = true then [o] else [] := by
  induction clients with
  | nil => simp [broadcastTargets, outputsFor, subscribersOf]
  | cons p rest ih =>
    obtain ⟨k, info⟩ := p
    have hWFc := hWF
    unfold WF at hWFc
    simp only [List.map_cons, List.nodup_cons] at hWFc
    obtain ⟨hknotin, hWFr⟩ := hWFc
    have ihr := ih hWFr
    rw [broadcastTargets_cons, subscribersOf_cons]
    by_cases hkw : k = w
    · subst hkw
      have hrest0 :
          outputsFor ((broadcastTargets rest ready ws c).map (fun q => (q.1, o))) k = [] := by
        apply outputsFor_targets_of_not_key
        intro p2 hp2 he
        exact hknotin (List.mem_map.mpr ⟨p2, hp2, he⟩)
      have hsub0 : k ∉ subscribersOf rest c := by
        rw [mem_subscribersOf]
        rintro ⟨i2, hi2, -⟩
        exact hknotin (List.mem_map.mpr ⟨(k, i2), hi2, rfl⟩)
      by_cases hws : k = ws
      · have hcf : ((k, info).1 ≠ ws && (k, info).2.channels.contains c && ready (k, info).1)
            = false := by
          simp [hws]
        rw [hcf]
        simp only [Bool.false_eq_true, if_false]
        rw [hrest0, if_neg (by intro hx; exact hx.1 hws)]
      · by_cases hc : c ∈ info.channels
        · by_cases hr : ready k = true
          · have hct : ((k, info).1 ≠ ws && (k, info).2.channels.contains c && ready (k, info).1)
                = true := by
              simp [hws, hc, hr]
            rw [hct, if_pos rfl, outputsFor_map_cons, if_pos rfl, hrest0]
            rw [if_pos ⟨hws, by rw [if_pos hc]; exact List.mem_cons_self _ _, hr⟩]
          · have hcf : ((k, info).1 ≠ ws && (k, info).2.channels.contains c && ready (k, info).1)
                = false := by
              simp [hr]
            rw [hcf]
            simp only [Bool.false_eq_true, if_false]
            rw [hrest0, if_neg (by intro hx; exact hr hx.2.2)]
        · have hcf : ((k, info).1 ≠ ws && (k, info).2.channels.contains c && ready (k, info).1)
              = false := by
            simp [hc]
          rw [hcf]
          simp only [Bool.false_eq_true, if_false]
          rw [hrest0]
          rw [if_neg (by rintro ⟨-, hx, -⟩; rw [if_neg hc] at hx; exact hsub0 hx)]
    · have hmem :
          (w ∈ (if c ∈ info.channels
                then k :: subscribersOf rest c else subscribersOf rest c))
            ↔ w ∈ subscribersOf rest c := by
        by_cases hc : c ∈ info.channels
        · rw [if_pos hc, List.mem_cons]
          constructor
          · rintro (h | h)
            · exact absurd h.symm hkw
            · exact h
          · exact Or.inr
        · rw [if_neg hc]
      have hiff :
          (w ≠ ws ∧
            w ∈ (if c ∈ info.channels
                 then k :: subscribersOf rest c else subscribersOf rest c) ∧
            ready w = true)
            ↔ (w ≠ ws ∧ w ∈ subscribersOf rest c ∧ ready w = true) := by
        rw [hmem]
      rw [if_congr hiff rfl rfl]
      by_cases hcond : ((k, info).1 ≠ ws && (k, info).2.channels.contains c && ready (k, info).1)
          = true
      · rw [if_pos hcond, outputsFor_map_cons, if_neg hkw, ihr]
      · rw [if_neg hcond, ihr]

lemma mapSet_eq_append (m : Clients) (k : WS) (v : ClientInfo)
    (h : mapGet m k = none) : mapSet m k v = m ++ [(k, v)] := by
  induction m with
  | nil => simp [mapSet]
  | cons p rest ih =>
    obtain ⟨k1, v1⟩ := p
    unfold mapGet at h
    by_cases hk : k1 = k
    · simp [hk] at h
    · simp only [if_neg hk] at h
      simp [mapSet, hk, ih h]

lemma not_mem_setDelete (s : List Nat) (c : Nat) : c ∉ setDelete s c := by
  unfold setDelete
  intro h
  have := (List.mem_filter.mp h).2
  simp at this

lemma broadcastTargets_append_sender (clients : Clients) (ready : WS → Bool)
    (ws : WS) (c : Nat) (v : ClientInfo) :
    broadcastTargets (clients ++ [(ws, v)]) ready ws c
      = broadcastTargets clients ready ws c := by
  unfold broadcastTargets
  rw [List.filter_append]
  simp

lemma broadcastTargets_mapSet_sender (clients : Clients) (ready : WS → Bool)
    (ws : WS) (c : Nat) (v1 v2 : ClientInfo) :
    broadcastTargets (mapSet clients ws v1) ready ws c
      = broadcastTargets (mapSet clients ws v2) ready ws c := by
  induction clients with
  | nil =>
    unfold mapSet broadcastTargets
    simp
  | cons p rest ih =>
    obtain ⟨k, v⟩ := p
    by_cases hk : k = ws
    · subst hk
      have h1 : mapSet ((k, v) :: rest) k v1 = (k, v1) :: rest := by
        unfold mapSet
        rw [if_pos rfl]
      have h2 : mapSet ((k, v) :: rest) k v2 = (k, v2) :: rest := by
        unfold mapSet
        rw [if_pos rfl]
      rw [h1, h2, broadcastTargets_cons, broadcastTargets_cons]
      simp
    · unfold mapSet
      simp only [if_neg hk]
      rw [broadcastTargets_cons, broadcastTargets_cons]
      by_cases hcond : ((k, v).1 ≠ ws && (k, v).2.channels.contains c && ready (k, v).1) = true
      · rw [if_pos hcond, if_pos hcond, ih]
      · rw [if_neg hcond, if_neg hcond, ih]

/-! ### The claims -/

/-- **C1.** A `new_message` frame `{channelId := c, data := d}` from sender `ws`
leaves the registry unchanged and delivers exactly one outbound
`new_message` frame carrying `d` to every connection that is subscribed to
`c`, is not `ws` itself, and whose socket is open; every other connection,
the sender included, receives nothing. -/
theorem new_message_fanout (ready : WS → Bool) (ws : WS) (c : Nat) (d : String)
    (clients : Clients) (w : WS) (hWF : WF clients) :
    (handleMessage ready ws (some (Frame.newMessage c d)) clients).1 = clients ∧
    outputsFor (handleMessage ready ws (some (Frame.newMessage c d)) clients).2 w =
      (if w ≠ ws ∧ w ∈ subscribersOf clients c ∧ ready w = true
       then [Outbound.newMessage d] else []) := by
  refine ⟨rfl, ?_⟩
  exact outputsFor_targets ready ws c (Outbound.newMessage d) clients w hWF

/-- Witness for C1: connection 1 broadcasts on channel 10; subscriber 2
receives exactly one copy, non-subscriber 3 and sender 1 receive nothing. -/
theorem new_message_fanout_witness :
    outputsFor (handleMessage (fun _ => true) 1 (some (Frame.newMessage 10 "hi"))
        [(1, ⟨1, [10]⟩), (2, ⟨2, [10]⟩), (3, ⟨3, [7]⟩)]).2 2
      = [Outbound.newMessage "hi"] ∧
    outputsFor (handleMessage (fun _ => true) 1 (some (Frame.newMessage 10 "hi"))
        [(1, ⟨1, [10]⟩), (2, ⟨2, [10]⟩), (3, ⟨3, [7]⟩)]).2 1 = [] := by
  constructor
  · rw [(new_message_fanout (fun _ => true) 1 10 "hi"
      [(1, ⟨1, [10]⟩), (2, ⟨2, [10]⟩), (3, ⟨3, [7]⟩)] 2 (by decide)).2]
    rw [if_pos (by decide)]
  · rw [(new_message_fanout (fun _ => true) 1 10 "hi"
      [(1, ⟨1, [10]⟩), (2, ⟨2, [10]⟩), (3, ⟨3, [7]⟩)] 1 (by decide)).2]
    rw [if_neg (by decide)]

/-- **C2.** A `typing` frame `{channelId := c, userId := u, isTyping := t}`
from sender `ws` leaves the registry unchanged and delivers exactly one
outbound `typing` frame with the same `userId`, `channelId` and `isTyping`
to every open-socket subscriber of `c` other than `ws`; everyone else,
the sender included, receives nothing. -/
theorem typing_fanout (ready : WS → Bool) (ws : WS) (c : Nat) (u : Int) (t : Bool)
    (clients : Clients) (w : WS) (hWF : WF clients) :
    (handleMessage ready ws (some (Frame.typing c u t)) clients).1 = clients ∧
    outputsFor (handleMessage ready ws (some (Frame.typing c u t)) clients).2 w =
      (if w ≠ ws ∧ w ∈ subscribersOf clients c ∧ ready w = true
       then [Outbound.typing u c t] else []) := by
  refine ⟨rfl, ?_⟩
  exact outputsFor_targets ready ws c (Outbound.typing u c t) clients w hWF

/-- Witness for C2: connection 2 sends `typing` on channel 10 while only
connection 1 is subscribed; 1 receives it with matching fields, 2 nothing. -/
theorem typing_fanout_witness :
    outputsFor (handleMessage (fun _ => true) 2 (some (Frame.typing 10 7 true))
        [(1, ⟨1, [10]⟩), (2, ⟨7, []⟩)]).2 1 = [Outbound.typing 7 10 true] ∧
    outputsFor (handleMessage (fun _ => true) 2 (some (Frame.typing 10 7 true))
        [(1, ⟨1, [10]⟩), (2, ⟨7, []⟩)]).2 2 = [] := by
  constructor
  · rw [(typing_fanout (fun _ => true) 2 10 7 true
      [(1, ⟨1, [10]⟩), (2, ⟨7, []⟩)] 1 (by decide)).2]
    rw [if_pos (by decide)]
  · rw [(typing_fanout (fun _ => true) 2 10 7 true
      [(1, ⟨1, [10]⟩), (2, ⟨7, []⟩)] 2 (by decide)).2]
    rw [if_neg (by decide)]

/-- **C3.** After the close handler runs for a connection, that connection is
a subscriber of no channel and a subsequent `new_message` or `typing`
fanout on any channel attempts no send to it. -/
theorem close_removes_all_subscriptions (ws : WS) (clients : Clients) (c : Nat) :
    ws ∉ subscribersOf (handleClose ws clients) c ∧
    (∀ ready sender d,
      outputsFor (handleMessage ready sender (some (Frame.newMessage c d))
        (handleClose ws clients)).2 ws = []) ∧
    (∀ ready sender u t,
      outputsFor (handleMessage ready sender (some (Frame.typing c u t))
        (handleClose ws clients)).2 ws = []) := by
  have hkey : ∀ p ∈ handleClose ws clients, p.1 ≠ ws := by
    intro p hp
    unfold handleClose mapDelete at hp
    have := (List.mem_filter.mp hp).2
    simpa using this
  refine ⟨?_, ?_, ?_⟩
  · rw [mem_subscribersOf]
    rintro ⟨info, hmem, -⟩
    exact hkey (ws, info) hmem rfl
  · intro ready sender d
    exact outputsFor_targets_of_not_key ready sender ws c (Outbound.newMessage d) _ hkey
  · intro ready sender u t
    exact outputsFor_targets_of_not_key ready sender ws c (Outbound.typing u c t) _ hkey

/-- **C4.** Processing `join_channel c` and then `leave_channel c` on the same
connection leaves that connection outside `subscribersOf c`. -/
theorem join_then_leave_unsubscribed (ready1 ready2 : WS → Bool) (ws : WS) (c : Nat)
    (clients : Clients) (hWF : WF clients) :
    ws ∉ subscribersOf
      (handleMessage ready2 ws (some (Frame.leaveChannel c))
        (handleMessage ready1 ws (some (Frame.joinChannel c)) clients).1).1 c := by
  cases hg : mapGet clients ws with
  | none =>
    have h1 : (handleMessage ready1 ws (some (Frame.joinChannel c)) clients).1 = clients := by
      simp [handleMessage, hg]
    rw [h1]
    have h2 : (handleMessage ready2 ws (some (Frame.leaveChannel c)) clients).1 = clients := by
      simp [handleMessage, hg]
    rw [h2, mem_subscribersOf]
    rintro ⟨info, hmem, -⟩
    exact (mapGet_eq_none_iff clients ws).mp hg info hmem
  | some info =>
    have h1 : (handleMessage ready1 ws (some (Frame.joinChannel c)) clients).1
        = mapSet clients ws ⟨info.userId, setAdd info.channels c⟩ := by
      simp [handleMessage, hg]
    rw [h1]
    have hg1 : mapGet (mapSet clients ws ⟨info.userId, setAdd info.channels c⟩) ws
        = some ⟨info.userId, setAdd info.channels c⟩ := mapGet_mapSet_self _ _ _
    have h2 : (handleMessage ready2 ws (some (Frame.leaveChannel c))
          (mapSet clients ws ⟨info.userId, setAdd info.channels c⟩)).1
        = mapSet (mapSet clients ws ⟨info.userId, setAdd info.channels c⟩) ws
            ⟨info.userId, setDelete (setAdd info.channels c) c⟩ := by
      simp [handleMessage, hg1]
    rw [h2, mem_subscribersOf]
    rintro ⟨info2, hmem, hc⟩
    have hWF2 : WF (mapSet (mapSet clients ws ⟨info.userId, setAdd info.channels c⟩) ws
        ⟨info.userId, setDelete (setAdd info.channels c) c⟩) :=
      WF_mapSet _ _ _ (WF_mapSet _ _ _ hWF)
    have hget := mapGet_eq_of_mem _ _ _ hWF2 hmem
    rw [mapGet_mapSet_self] at hget
    injection hget with hinfo
    rw [← hinfo] at hc
    have hcm : c ∈ setDelete (setAdd info.channels c) c := by
      simpa using hc
    exact not_mem_setDelete _ c hcm

/-- Witness for C4: connection 0 joins then leaves channel 5 and is no longer
a subscriber. -/
theorem join_then_leave_unsubscribed_witness :
    0 ∉ subscribersOf
      (handleMessage (fun _ => true) 0 (some (Frame.leaveChannel 5))
        (handleMessage (fun _ => true) 0 (some (Frame.joinChannel 5))
          [(0, ⟨1, []⟩)]).1).1 5 :=
  join_then_leave_unsubscribed (fun _ => true) (fun _ => true) 0 5 [(0, ⟨1, []⟩)]
    (by decide)

/-- **C5 counterexample.** The claim says re-identification leaves the
connection's subscription set untouched. On the code it does not: connection
0 auths, joins channel 5 (so it is a subscriber of 5), then re-auths; the
`auth` case stores a fresh empty `channels` set, and 0 is no longer a
subscriber of 5. -/
theorem auth_preserves_channels_counterexample :
    subscribersOf ((handleMessage (fun _ => true) 0 (some (Frame.joinChannel 5))
      (handleMessage (fun _ => true) 0 (some (Frame.auth 1)) []).1).1) 5 = [0] ∧
    subscribersOf ((handleMessage (fun _ => true) 0 (some (Frame.auth 2))
      ((handleMessage (fun _ => true) 0 (some (Frame.joinChannel 5))
        (handleMessage (fun _ => true) 0 (some (Frame.auth 1)) []).1).1)).1) 5
      = [] := by
  constructor
  · rfl
  · rfl

/-- **C5 (amended).** An `auth` frame records the asserted identity for the
connection, overwriting any prior identity (last write wins), leaves every
other connection's entry untouched and emits nothing — but it also resets
the connection's channel subscription set to empty, so a re-identifying
client loses its joined channels. -/
theorem auth_overwrites_identity_and_resets_channels (ready : WS → Bool) (ws : WS)
    (u : Int) (clients : Clients) (hWF : WF clients) :
    mapGet (handleMessage ready ws (some (Frame.auth u)) clients).1 ws
      = some ⟨u, []⟩ ∧
    (∀ w, w ≠ ws →
      mapGet (handleMessage ready ws (some (Frame.auth u)) clients).1 w
        = mapGet clients w) ∧
    (∀ c, ws ∉ subscribersOf (handleMessage ready ws (some (Frame.auth u)) clients).1 c) ∧
    (handleMessage ready ws (some (Frame.auth u)) clients).2 = [] := by
  refine ⟨mapGet_mapSet_self _ _ _, ?_, ?_, rfl⟩
  · intro w hw
    exact mapGet_mapSet_ne _ _ _ _ hw
  · intro c
    rw [mem_subscribersOf]
    rintro ⟨info, hmem, hc⟩
    have hget := mapGet_eq_of_mem _ _ _ (WF_mapSet _ _ _ hWF) hmem
    rw [mapGet_mapSet_self] at hget
    injection hget with hinfo
    rw [← hinfo] at hc
    simp at hc

/-- Witness for the amended C5: after re-auth with user 7 the stored entry is
`{userId := 7, channels := ∅}` even though channel 5 had been joined. -/
theorem auth_overwrites_identity_and_resets_channels_witness :
    mapGet (handleMessage (fun _ => true) 0 (some (Frame.auth 7))
      [(0, ⟨1, [5]⟩)]).1 0 = some ⟨7, []⟩ :=
  (auth_overwrites_identity_and_resets_channels (fun _ => true) 0 7
    [(0, ⟨1, [5]⟩)] (by decide)).1

/-- **C6 counterexample.** The claim says a connection that never sent `auth`
can join a channel and then appears among its subscribers. On the code the
`join_channel` case does `clients.get(ws)` and silently does nothing when the
connection has no entry, and a connection gets an entry only from `auth`: a
fresh connection 0 joining channel 5 changes nothing, is not a subscriber of
5, and a later broadcast on 5 reaches nobody. -/
theorem join_before_auth_counterexample :
    (handleMessage (fun _ => true) 0 (some (Frame.joinChannel 5)) []).1 = [] ∧
    subscribersOf (handleMessage (fun _ => true) 0
      (some (Frame.joinChannel 5)) []).1 5 = [] ∧
    (handleMessage (fun _ => true) 1 (some (Frame.newMessage 5 "x"))
      (handleMessage (fun _ => true) 0 (some (Frame.joinChannel 5)) []).1).2 = [] := by
  refine ⟨rfl, rfl, rfl⟩

/-- **C6 (amended).** A `join_channel` frame from a connection that has no
entry in the `clients` map — in particular one that never sent `auth` — is a
silent no-op: the registry is unchanged and nothing is emitted. Joins only
take effect after the connection has identified. -/
theorem join_without_auth_is_noop (ready : WS → Bool) (ws : WS) (c : Nat)
    (clients : Clients) (hg : mapGet clients ws = none) :
    handleMessage ready ws (some (Frame.joinChannel c)) clients = (clients, []) := by
  simp [handleMessage, hg]

/-- Witness for the amended C6: connection 0 (no `auth` sent, an unrelated
connection 1 is registered) joins channel 5 and nothing changes. -/
theorem join_without_auth_is_noop_witness :
    handleMessage (fun _ => true) 0 (some (Frame.joinChannel 5)) [(1, ⟨2, [5]⟩)]
      = ([(1, ⟨2, [5]⟩)], []) :=
  join_without_auth_is_noop (fun _ => true) 0 5 [(1, ⟨2, [5]⟩)] (by decide)

/-- **C7.** A malformed frame (JSON decode failure, modelled as `none`) or a
frame with an unrecognized `type` (modelled as `Frame.unknown`) leaves the
registry exactly as it was and emits nothing; the handler's result type has
no connection-terminating or process-fatal action, matching the catch-and-log
source, so the connection stays registered iff it was. -/
theorem malformed_or_unknown_frame_noop (ready : WS → Bool) (ws : WS)
    (clients : Clients) :
    handleMessage ready ws none clients = (clients, []) ∧
    handleMessage ready ws (some Frame.unknown) clients = (clients, []) :=
  ⟨rfl, rfl⟩

/-- **C8.** No identity check gates broadcasting: the sends produced by a
`new_message` or `typing` frame from a connection with no `clients` entry
(one that never sent `auth`) are exactly the sends the same frame would
produce had the sender been identified (its entry present with any identity
and subscriptions); the event is processed, not dropped. -/
theorem unauthed_sender_broadcasts_normally (ready : WS → Bool) (ws : WS) (c : Nat)
    (d : String) (u : Int) (t : Bool) (uch : List Nat) (clients : Clients)
    (hg : mapGet clients ws = none) :
    (handleMessage ready ws (some (Frame.newMessage c d)) clients).2
      = (handleMessage ready ws (some (Frame.newMessage c d))
          (mapSet clients ws ⟨u, uch⟩)).2 ∧
    (handleMessage ready ws (some (Frame.typing c u t)) clients).2
      = (handleMessage ready ws (some (Frame.typing c u t))
          (mapSet clients ws ⟨u, uch⟩)).2 := by
  rw [mapSet_eq_append clients ws ⟨u, uch⟩ hg]
  constructor
  · show (broadcastTargets clients ready ws c).map (fun p => (p.1, Outbound.newMessage d))
      = (broadcastTargets (clients ++ [(ws, (⟨u, uch⟩ : ClientInfo))]) ready ws c).map
          (fun p => (p.1, Outbound.newMessage d))
    rw [broadcastTargets_append_sender]
  · show (broadcastTargets clients ready ws c).map (fun p => (p.1, Outbound.typing u c t))
      = (broadcastTargets (clients ++ [(ws, (⟨u, uch⟩ : ClientInfo))]) ready ws c).map
          (fun p => (p.1, Outbound.typing u c t))
    rw [broadcastTargets_append_sender]

/-- Witness for C8: connection 0 has no entry, 1 subscribes to channel 5;
a broadcast from 0 is delivered to 1 exactly as it would be had 0 sent
`auth` first. -/
theorem unauthed_sender_broadcasts_normally_witness :
    (handleMessage (fun _ => true) 0 (some (Frame.newMessage 5 "x"))
        [(1, ⟨2, [5]⟩)]).2
      = (handleMessage (fun _ => true) 0 (some (Frame.newMessage 5 "x"))
          (mapSet [(1, ⟨2, [5]⟩)] 0 ⟨9, [5]⟩)).2 :=
  (unauthed_sender_broadcasts_normally (fun _ => true) 0 5 "x" 9 true [5]
    [(1, ⟨2, [5]⟩)] (by decide)).1

/-- **C9.** The sender's own registry entry — its identity and in particular
its own subscription set — is irrelevant to fanout: replacing it by any other
entry changes neither the sends of a `new_message` nor of a `typing` frame it
originates. The recipient set is determined solely by the other connections'
subscriptions. -/
theorem sender_subscriptions_irrelevant_to_fanout (ready : WS → Bool) (ws : WS)
    (c : Nat) (d : String) (u1 u2 : Int) (t : Bool) (ch1 ch2 : List Nat)
    (clients : Clients) :
    (handleMessage ready ws (some (Frame.newMessage c d))
        (mapSet clients ws ⟨u1, ch1⟩)).2
      = (handleMessage ready ws (some (Frame.newMessage c d))
          (mapSet clients ws ⟨u2, ch2⟩)).2 ∧
    (handleMessage ready ws (some (Frame.typing c u1 t))
        (mapSet clients ws ⟨u1, ch1⟩)).2
      = (handleMessage ready ws (some (Frame.typing c u1 t))
          (mapSet clients ws ⟨u2, ch2⟩)).2 := by
  constructor
  · show (broadcastTargets (mapSet clients ws ⟨u1, ch1⟩) ready ws c).map
        (fun p => (p.1, Outbound.newMessage d))
      = (broadcastTargets (mapSet clients ws ⟨u2, ch2⟩) ready ws c).map
          (fun p => (p.1, Outbound.newMessage d))
    rw [broadcastTargets_mapSet_sender clients ready ws c ⟨u1, ch1⟩ ⟨u2, ch2⟩]
  · show (broadcastTargets (mapSet clients ws ⟨u1, ch1⟩) ready ws c).map
        (fun p => (p.1, Outbound.typing u1 c t))
      = (broadcastTargets (mapSet clients ws ⟨u2, ch2⟩) ready ws c).map
          (fun p => (p.1, Outbound.typing u1 c t))
    rw [broadcastTargets_mapSet_sender clients ready ws c ⟨u1, ch1⟩ ⟨u2, ch2⟩]

/-- **C10.** Snapshot semantics of a fanout with respect to later registry
mutations: processing a trace decomposes over concatenation, so the sends
produced for the events of a prefix — every fanout's recipient sequence
included — are computed from the registry state reached before them and are
bit-for-bit unaffected by whatever joins, leaves, disconnects or further
broadcasts follow. Each handler runs to completion before the next event, so
delivery always goes to the consistent pre-mutation subscriber snapshot. -/
theorem fanout_snapshot_prefix_independent (ready : WS → Bool)
    (tr1 tr2 : List Event) (s : Clients) :
    run ready (tr1 ++ tr2) s =
      ((run ready tr2 (run ready tr1 s).1).1,
       (run ready tr1 s).2 ++ (run ready tr2 (run ready tr1 s).1).2) := by
  induction tr1 generalizing s with
  | nil => simp [run]
  | cons e es ih =>
    have h1 : run ready ((e :: es) ++ tr2) s
        = ((run ready (es ++ tr2) (stepEvent ready e s).1).1,
           (stepEvent ready e s).2
             ++ (run ready (es ++ tr2) (stepEvent ready e s).1).2) := rfl
    have h2 : run ready (e :: es) s
        = ((run ready es (stepEvent ready e s).1).1,
           (stepEvent ready e s).2
             ++ (run ready es (stepEvent ready e s).1).2) := rfl
    rw [h1, h2, ih]
    simp [List.append_assoc]
